import Mathlib

/-!
Verification of the file lifecycle engine of `imnotdev25/bashupload`
(`src/main.go`): the ledger of uploaded objects, the upload and download
handlers, the hourly cleanup sweep, and the API-key gate, embedded shallowly.
Time is modelled as `Nat` seconds; the sqlite ledger as a list of rows; the
uploads directory as a list of `(path, size)` pairs.
-/

namespace Bashupload

/-- One row of the ledger (`FileRecord`, main.go 24-36).  The gorm integer
primary key is omitted: `unique_id` carries a `unique; not null` column
constraint and is the only key the handlers query by, so it serves as the key
here.  `ExpiresAt *time.Time` is an optional timestamp. -/
structure FileRecord where
  uniqueID : String
  originalName : String
  filePath : String
  fileSize : Int
  mimeType : String
  extension : String
  uploadedAt : Nat
  downloads : Nat
  ipAddress : String
  expiresAt : Option Nat
deriving DecidableEq

/-- Server state: the ledger rows in insertion order and the uploads
directory, a finite map from path to byte size. -/
structure Store where
  ledger : List FileRecord
  disk : List (String × Nat)
deriving DecidableEq

/-- `db.Where("unique_id = ?", id).First(&rec)` (main.go 370): the first row
whose unique id matches. -/
def findByID (l : List FileRecord) (id : String) : Option FileRecord :=
  l.find? (fun r => r.uniqueID == id)

/-- Whether a path exists in the uploads directory (`os.Stat`, main.go 384). -/
def diskHas (st : Store) (path : String) : Bool :=
  st.disk.any (fun p => p.1 == path)

/-- `os.Remove(path)`: the path's entry is dropped; removing a missing path is
a no-op (every call site discards the error). -/
def removePath (st : Store) (path : String) : Store :=
  { st with disk := st.disk.filter (fun p => p.1 != path) }

/-- `db.Delete(&rec)`: the row keyed by the record's unique id is removed. -/
def deleteByID (st : Store) (id : String) : Store :=
  { st with ledger := st.ledger.filter (fun r => r.uniqueID != id) }

/-- `os.Create` + `io.Copy`: the uploads directory gains `(path, size)`. -/
def writePath (st : Store) (path : String) (size : Nat) : Store :=
  { st with disk := (path, size) :: st.disk.filter (fun p => p.1 != path) }

/-- `db.Create(&fileRecord)`: the row is appended to the ledger. -/
def insertRecord (st : Store) (r : FileRecord) : Store :=
  { st with ledger := st.ledger ++ [r] }

/-- `db.Model(&rec).Update("downloads", v)` (main.go 397): the row keyed by
`id` gets its downloads column set to `v` (the caller passes the fetched
counter plus one, not a relative SQL increment). -/
def dbUpdateDownloads (st : Store) (id : String) (v : Nat) : Store :=
  { st with
    ledger := st.ledger.map (fun r =>
      if r.uniqueID == id then { r with downloads := v } else r) }

/-- `strings.LastIndex(filename, ".")` split (main.go 360-367): the portion
before the last dot; a name with no dot is returned whole. -/
def extractIDList (cs : List Char) : List Char :=
  if '.' ∈ cs then ((cs.reverse.dropWhile (fun c => c != '.')).tail).reverse
  else cs

/-- The unique id a download URL's `:filename` parameter resolves to. -/
def extractID (s : String) : String :=
  ⟨extractIDList s.data⟩

/-- `fileRecord.ExpiresAt != nil && time.Now().After(*fileRecord.ExpiresAt)`
(main.go 376): strictly after the stored expiry instant. -/
def isExpired (now : Nat) (r : FileRecord) : Bool :=
  match r.expiresAt with
  | some t => decide (t < now)
  | none => false

/-- Outcome of `GET /d/:filename` (handleFileDownload, main.go 357-409). -/
inductive DownloadResp
  | notFound
  | hasExpired
  | notOnDisk
  | alreadyDownloaded
  | fileStream (path name : String) (size : Int)
deriving DecidableEq

/-- The HTTP status each download outcome carries in the handler. -/
def DownloadResp.status : DownloadResp → Nat
  | .notFound => 404
  | .hasExpired => 404
  | .notOnDisk => 404
  | .alreadyDownloaded => 410
  | .fileStream _ _ _ => 200

/-- A side effect the download handler performs, in program order. -/
inductive Effect
  | osRemove (path : String)
  | dbDelete (id : String)
  | dbSetDownloads (id : String) (v : Nat)
  | sendFile (path : String)
deriving DecidableEq

def applyEffect (st : Store) : Effect → Store
  | .osRemove p => removePath st p
  | .dbDelete id => deleteByID st id
  | .dbSetDownloads id v => dbUpdateDownloads st id v
  | .sendFile _ => st

/-- handleFileDownload (main.go 357-409): the response and the side effects it
performs, listed in the order the code runs them.  The branch order mirrors
the source: lookup (404), expiry check with lazy cleanup (404 "File has
expired"), on-disk check (404 "File not found on disk", no cleanup),
download-count check with lazy cleanup (410), else set the counter to the
fetched value plus one and stream the file. -/
def handleFileDownload (st : Store) (now : Nat) (filename : String) :
    DownloadResp × List Effect :=
  let uniqueID := extractID filename
  match findByID st.ledger uniqueID with
  | none => (.notFound, [])
  | some r =>
    if isExpired now r then
      (.hasExpired, [.osRemove r.filePath, .dbDelete r.uniqueID])
    else if diskHas st r.filePath = false then
      (.notOnDisk, [])
    else if r.downloads ≥ 1 then
      (.alreadyDownloaded, [.osRemove r.filePath, .dbDelete r.uniqueID])
    else
      (.fileStream r.filePath r.originalName r.fileSize,
        [.dbSetDownloads r.uniqueID (r.downloads + 1), .sendFile r.filePath])

/-- The download handler's observable result: the state after its side
effects, and its response. -/
def runDownload (st : Store) (now : Nat) (filename : String) :
    Store × DownloadResp :=
  ((handleFileDownload st now filename).2.foldl applyEffect st,
   (handleFileDownload st now filename).1)

/-- `filepath.Ext`: the suffix beginning at the final dot, dot included;
empty when there is no dot. -/
def fileExt (s : String) : String :=
  if '.' ∈ s.data then ⟨'.' :: (s.data.reverse.takeWhile (fun c => c != '.')).reverse⟩
  else ""

/-- `ext := filepath.Ext(filename); if ext == "" { ext = ".bin" }`
(main.go 211-214 and 300-303). -/
def extOrBin (s : String) : String :=
  if fileExt s = "" then ".bin" else fileExt s

/-- `filepath.Join("uploads", uniqueID+ext)` (main.go 217-218, 306-307). -/
def uploadPath (uniqueID ext : String) : String :=
  "uploads/" ++ uniqueID ++ ext

/-- The raw-PUT handler's limit, `50*1024*1024*1024` (main.go 225). -/
def curlSizeLimit : Int := 50 * 1024 * 1024 * 1024

/-- The multipart handler's limit, `10*1024*1024*1024` (main.go 289). -/
def formSizeLimit : Int := 10 * 1024 * 1024 * 1024

/-- `time.Now().Add(72 * time.Hour)` (main.go 251, 322), in seconds. -/
def uploadTTL : Nat := 72 * 3600

/-- Outcome of an upload request. -/
inductive UploadResp
  | tooLarge
  | createFailed
  | saveFailed
  | metadataFailed
  | noFile
  | curlOk (url : String)
  | jsonOk (uniqueID url : String) (size : Int)
deriving DecidableEq

/-- The HTTP status each upload outcome carries in the handlers. -/
def UploadResp.status : UploadResp → Nat
  | .tooLarge => 413
  | .createFailed => 500
  | .saveFailed => 500
  | .metadataFailed => 500
  | .noFile => 400
  | .curlOk _ => 200
  | .jsonOk _ _ _ => 200

/-- handleCurlUpload (main.go 191-276).  `filename` is the name already
resolved from the Content-Disposition header or the `filename` query
parameter (default `upload.bin`, main.go 193-205).  `declaredSize` is the parsed
`Content-Length` header — `strconv.ParseInt` leaves 0 on a malformed or
missing header and the error is discarded (main.go 222) — and is the ONLY
size the handler checks; `actualSize` is the byte count the body stream
actually carries, measured by `os.Stat` after the copy and stored in the
ledger row without any further check.  `createOk`, `streamOk`, `insertOk`
model whether `os.Create`, the `io.Copy` and the gorm insert succeed; a
failed copy removes the partial file, a failed insert removes the complete
file. -/
def handleCurlUpload (st : Store) (filename uniqueID : String)
    (declaredSize : Int) (actualSize : Nat)
    (createOk streamOk insertOk : Bool) (now : Nat)
    (mime ip baseURL : String) : Store × UploadResp :=
  let ext := extOrBin filename
  let filePath := uploadPath uniqueID ext
  if declaredSize > curlSizeLimit then (st, .tooLarge)
  else if createOk = false then (st, .createFailed)
  else if streamOk = false then
    (removePath (writePath st filePath actualSize) filePath, .saveFailed)
  else
    let st1 := writePath st filePath actualSize
    let row : FileRecord :=
      { uniqueID := uniqueID, originalName := filename, filePath := filePath,
        fileSize := (actualSize : Int), mimeType := mime, extension := ext,
        uploadedAt := now, downloads := 0, ipAddress := ip,
        expiresAt := some (now + uploadTTL) }
    if insertOk = false then (removePath st1 filePath, .metadataFailed)
    else (insertRecord st1 row, .curlOk (baseURL ++ "/d/" ++ uniqueID ++ ext))

/-- handleFileUpload (main.go 278-355), the multipart form path.  `file?` is
`none` when `c.FormFile("file")` errors; otherwise it carries the part's
filename, its size — the actual byte count of the received part, which IS
what the limit check reads — and its Content-Type.  `saveOk`/`insertOk`
model `c.SaveFile` and the gorm insert; a failed save returns 500 with no
cleanup in the source, a failed insert removes the saved file. -/
def handleFileUpload (st : Store) (file? : Option (String × Int × String))
    (uniqueID : String) (saveOk insertOk : Bool) (now : Nat)
    (ip baseURL : String) : Store × UploadResp :=
  match file? with
  | none => (st, .noFile)
  | some (fname, fsize, mime) =>
    if fsize > formSizeLimit then (st, .tooLarge)
    else
      let ext := extOrBin fname
      let filePath := uploadPath uniqueID ext
      if saveOk = false then (st, .saveFailed)
      else
        let st1 := writePath st filePath fsize.toNat
        let row : FileRecord :=
          { uniqueID := uniqueID, originalName := fname, filePath := filePath,
            fileSize := fsize, mimeType := mime, extension := ext,
            uploadedAt := now, downloads := 0, ipAddress := ip,
            expiresAt := some (now + uploadTTL) }
        if insertOk = false then (removePath st1 filePath, .metadataFailed)
        else
          (insertRecord st1 row,
           .jsonOk uniqueID (baseURL ++ "/d/" ++ uniqueID ++ ext) fsize)

/-- The sweep's row selection, the SQL predicate
`expires_at < ? OR downloads >= 1` bound to the current time (main.go 108);
a NULL `expires_at` makes the first disjunct false. -/
def reclaimSelect (now : Nat) (r : FileRecord) : Bool :=
  (match r.expiresAt with
   | some t => decide (t < now)
   | none => false) || decide (r.downloads ≥ 1)

/-- Per-row sweep body (main.go 110-115): `os.Remove(file.FilePath)` with the
error discarded — a missing file is a no-op — then `db.Delete(&file)`. -/
def reclaimStep (st : Store) (r : FileRecord) : Store :=
  deleteByID (removePath st r.filePath) r.uniqueID

/-- One iteration of cleanupExpiredFiles' ticker loop (main.go 106-119):
query the matching rows, then run the per-row body over each.  Note that
cleanupExpiredFiles is DEAD CODE: it is defined at main.go 102 and invoked
nowhere — main (main.go 51-100) contains no `go cleanupExpiredFiles()` and
no other caller exists — so the running program never performs this
transition. -/
def cleanupTick (st : Store) (now : Nat) : Store :=
  (st.ledger.filter (reclaimSelect now)).foldl reclaimStep st

/-- The ticker interval cleanupExpiredFiles would use, `1 * time.Hour`
(main.go 103), in seconds — an interval of dead code, since the function is
never started. -/
def tickIntervalSeconds : Nat := 1 * 3600

/-- The background loops main (main.go 51-100) launches beside the HTTP
server: there are none.  main runs initDB, reads the API key, creates the
uploads directory, builds the fiber app with its middleware, wires the
routes and blocks in Listen; it spawns no goroutine, so in particular
cleanupExpiredFiles' sweep loop is never scheduled. -/
def mainBackgroundLoops : List (Store → Nat → Store) := []

/-- apiKeyMiddleware (main.go 165-189): `none` models `c.Next()`, `some 401`
the rejection.  The `X-API-Key` header is consulted first; if empty, the
`api_key` query parameter; if still empty, the `api_key` form value. -/
def apiKeyMiddleware (key header query form : String) : Option Nat :=
  if key = "" then none
  else
    let provided := if header ≠ "" then header
                    else if query ≠ "" then query else form
    if provided ≠ key then some 401 else none

/-- A registered route and whether apiKeyMiddleware guards it. -/
structure Route where
  method : String
  path : String
  authGated : Bool
deriving DecidableEq

/-- setupRoutes (main.go 139-163): the middleware is attached to the `/api`
group and to `PUT /` exactly when an API key is configured; the download
routes and the web interface never carry it. -/
def setupRoutes (key : String) : List Route :=
  [ { method := "PUT", path := "/", authGated := key != "" },
    { method := "POST", path := "/api/upload", authGated := key != "" },
    { method := "GET", path := "/api/files/:id", authGated := key != "" },
    { method := "GET", path := "/api/stats", authGated := key != "" },
    { method := "GET", path := "/d/:filename", authGated := false },
    { method := "GET", path := "/download/:filename", authGated := false },
    { method := "GET", path := "/", authGated := false } ]

/-- Modelled from the spec: §4.1's `InvalidFormat` failure.  No size/duration
parser exists in the repository's files — main.go hardcodes its limits
(50GB/10GB) and TTL (72h) — so the parser is modelled from the spec's words. -/
inductive ConfigError
  | invalidFormat
deriving DecidableEq

/-- Modelled from the spec: the digits of a decimal numeral as a number. -/
def digitsToNat (cs : List Char) : Nat :=
  cs.foldl (fun n c => 10 * n + (c.toNat - 48)) 0

/-- Modelled from the spec: §4.1's size-unit table, on a lowercased unit
string.  Binary (1024-based) multiples regardless of SI spelling; the empty
unit means raw bytes; an unknown unit is unrecognized. -/
def sizeUnitMult (cs : List Char) : Option Nat :=
  match cs with
  | [] => some 1
  | ['b'] | ['b','y','t','e'] | ['b','y','t','e','s'] => some 1
  | ['k'] | ['k','b'] | ['k','i','b'] => some 1024
  | ['m'] | ['m','b'] | ['m','i','b'] => some (1024 ^ 2)
  | ['g'] | ['g','b'] | ['g','i','b'] => some (1024 ^ 3)
  | ['t'] | ['t','b'] | ['t','i','b'] => some (1024 ^ 4)
  | _ => none

/-- Modelled from the spec: §4.1's duration-unit table in minutes, on a
lowercased unit string.  A bare number is hours; months and years are the
approximate 30- and 365-day values. -/
def durationUnitMinutes (cs : List Char) : Option Nat :=
  match cs with
  | [] => some 60
  | ['m'] | ['m','i','n'] | ['m','i','n','u','t','e']
  | ['m','i','n','u','t','e','s'] => some 1
  | ['h'] | ['h','o','u','r'] | ['h','o','u','r','s'] => some 60
  | ['d'] | ['d','a','y'] | ['d','a','y','s'] => some 1440
  | ['w'] | ['w','e','e','k'] | ['w','e','e','k','s'] => some 10080
  | ['m','o'] | ['m','o','n','t','h'] | ['m','o','n','t','h','s'] => some 43200
  | ['y'] | ['y','e','a','r'] | ['y','e','a','r','s'] => some 525600
  | _ => none

/-- Modelled from the spec: §4.1's grammar — an optional-fraction decimal
number followed by an optional unit, case-insensitive.  Fails with
`InvalidFormat` when the string has no leading digits, the fraction has no
digits, or the unit is unrecognized.  The value is the floor of the number
times the unit's multiplier. -/
def parseHuman (unitMult : List Char → Option Nat) (cs : List Char) :
    Except ConfigError Nat :=
  let intPart := cs.takeWhile Char.isDigit
  let rest := cs.dropWhile Char.isDigit
  if intPart = [] then .error .invalidFormat
  else if rest.head? = some '.' then
    let fracPart := rest.tail.takeWhile Char.isDigit
    let unit := rest.tail.dropWhile Char.isDigit
    if fracPart = [] then .error .invalidFormat
    else
      match unitMult (unit.map Char.toLower) with
      | none => .error .invalidFormat
      | some m =>
        .ok (digitsToNat intPart * m +
             digitsToNat fracPart * m / 10 ^ fracPart.length)
  else
    match unitMult (rest.map Char.toLower) with
    | none => .error .invalidFormat
    | some m => .ok (digitsToNat intPart * m)

/-- Modelled from the spec: parse a human size string into exact bytes. -/
def parseSize (s : String) : Except ConfigError Nat :=
  parseHuman sizeUnitMult s.data

/-- Modelled from the spec: parse a human duration string into minutes. -/
def parseHumanMinutes (s : String) : Except ConfigError Nat :=
  parseHuman durationUnitMinutes s.data

/-- Modelled from the spec: the hardcoded 1GB upload-limit default. -/
def defaultSizeLimit : Nat := 1024 ^ 3

/-- Modelled from the spec: the hardcoded 3-day expiry default, in minutes. -/
def defaultExpiryMinutes : Nat := 3 * 24 * 60

/-- Modelled from the spec: the configured upload limit — on parse failure the
caller substitutes the 1GB default and startup continues. -/
def sizeLimitConfig (s : String) : Nat :=
  match parseSize s with
  | .ok n => n
  | .error _ => defaultSizeLimit

/-- Modelled from the spec: the configured expiry — on parse failure the
caller substitutes the 3-day default and startup continues. -/
def expiryConfig (s : String) : Nat :=
  match parseHumanMinutes s with
  | .ok n => n
  | .error _ => defaultExpiryMinutes

/-! ## Ledger and disk lemmas -/

theorem uniqueID_of_findByID {l : List FileRecord} {id : String}
    {r : FileRecord} (h : findByID l id = some r) : r.uniqueID = id := by
  have hp := List.find?_some (by simpa [findByID] using h)
  exact eq_of_beq hp

theorem runDownload_eq (st : Store) (now : Nat) (filename : String) :
    runDownload st now filename
      = ((handleFileDownload st now filename).2.foldl applyEffect st,
         (handleFileDownload st now filename).1) := rfl

theorem findByID_deleteByID (st : Store) (id : String) :
    findByID (deleteByID st id).ledger id = none := by
  simp only [findByID, deleteByID]
  rw [List.find?_eq_none]
  intro x hx
  have := (List.mem_filter.mp hx).2
  simpa using this

theorem diskHas_removePath (st : Store) (p : String) :
    diskHas (removePath st p) p = false := by
  simp only [diskHas, removePath]
  rw [List.any_eq_false]
  intro x hx
  have := (List.mem_filter.mp hx).2
  simpa using this

theorem findByID_dbUpdateDownloads (st : Store) (id : String) (v : Nat) :
    findByID (dbUpdateDownloads st id v).ledger id
      = (findByID st.ledger id).map (fun r => { r with downloads := v }) := by
  simp only [findByID, dbUpdateDownloads]
  induction st.ledger with
  | nil => rfl
  | cons a l ih =>
    by_cases h : (a.uniqueID == id) = true
    · simp [List.find?, h]
    · have h' : (a.uniqueID == id) = false := by simpa using h
      rw [List.map_cons, if_neg h, List.find?_cons_of_neg _ (by simp [h']),
        List.find?_cons_of_neg _ (by simp [h'])]
      exact ih

/-! ## Filename-splitting lemmas -/

theorem takeWhile_append_all {p : Char → Bool} (cs l : List Char)
    (h : ∀ c ∈ cs, p c = true) :
    (cs ++ l).takeWhile p = cs ++ l.takeWhile p := by
  induction cs with
  | nil => rfl
  | cons a t ih =>
    have ha := h a (by simp)
    simp only [List.cons_append, List.takeWhile_cons, ha, if_true]
    rw [ih (fun c hc => h c (by simp [hc]))]

theorem dropWhile_append_all {p : Char → Bool} (cs l : List Char)
    (h : ∀ c ∈ cs, p c = true) :
    (cs ++ l).dropWhile p = l.dropWhile p := by
  induction cs with
  | nil => rfl
  | cons a t ih =>
    have ha := h a (by simp)
    simp only [List.cons_append, List.dropWhile_cons, ha, if_true]
    exact ih (fun c hc => h c (by simp [hc]))

theorem extractIDList_no_dot (cs : List Char) (h : '.' ∉ cs) :
    extractIDList cs = cs := by
  simp [extractIDList, h]

theorem extractIDList_strip (id ext : List Char)
    (hid : '.' ∉ id) (hext : '.' ∉ ext) :
    extractIDList (id ++ '.' :: ext) = id := by
  have hmem : '.' ∈ id ++ '.' :: ext := by simp
  rw [extractIDList, if_pos hmem]
  have hrev : (id ++ '.' :: ext).reverse = ext.reverse ++ '.' :: id.reverse := by
    simp
  rw [hrev, dropWhile_append_all _ _ (fun c hc => by
    have : c ≠ '.' := fun he => hext (he ▸ List.mem_reverse.mp hc)
    simpa using this)]
  simp [List.dropWhile_cons]

theorem extractID_strip (id ext : String)
    (hid : '.' ∉ id.data) (hext : '.' ∉ ext.data) :
    extractID (id ++ "." ++ ext) = id := by
  have hdata : (id ++ "." ++ ext).data = id.data ++ '.' :: ext.data := by
    simp [String.data_append]
  rw [extractID, hdata, extractIDList_strip _ _ hid hext]

theorem extractID_no_dot (id : String) (hid : '.' ∉ id.data) :
    extractID id = id := by
  rw [extractID, extractIDList_no_dot _ hid]

/-- C10: for every download request, only the portion of the `:filename`
parameter before its last dot is the lookup identifier; the extension suffix
is ignored, so a request for the id with any dot-free extension — or for the
bare id when the id itself has no dot — resolves to the same stored object,
the whole handler behaving identically on both. -/
theorem download_filename_extension (id ext : String)
    (hid : '.' ∉ id.data) (hext : '.' ∉ ext.data) :
    extractID (id ++ "." ++ ext) = id ∧ extractID id = id ∧
    ∀ st now, handleFileDownload st now (id ++ "." ++ ext)
      = handleFileDownload st now id := by
  have h1 := extractID_strip id ext hid hext
  have h2 := extractID_no_dot id hid
  refine ⟨h1, h2, fun st now => ?_⟩
  simp only [handleFileDownload, h1, h2]

/-! ## Concrete fixtures used by counterexamples and witnesses -/

/-- A stored object: unexpired until time 100, never downloaded, on disk. -/
def exRec : FileRecord :=
  { uniqueID := "deadbeef", originalName := "notes.txt",
    filePath := "uploads/deadbeef.txt", fileSize := 3,
    mimeType := "text/plain", extension := ".txt", uploadedAt := 0,
    downloads := 0, ipAddress := "203.0.113.7", expiresAt := some 100 }

def exStore : Store :=
  { ledger := [exRec], disk := [("uploads/deadbeef.txt", 3)] }

/-- A ledger row whose backing bytes are absent from the uploads directory. -/
def orphanRec : FileRecord :=
  { uniqueID := "feedface", originalName := "gone.txt",
    filePath := "uploads/feedface.txt", fileSize := 7,
    mimeType := "text/plain", extension := ".txt", uploadedAt := 0,
    downloads := 0, ipAddress := "203.0.113.7", expiresAt := some 100 }

def orphanStore : Store := { ledger := [orphanRec], disk := [] }

/-! ## Claim theorems -/

/-- C1: with the hardcoded max-downloads threshold of 1, a permitted download
streams the file and durably records `downloads = 1`; the next retrieval of
the same id (still unexpired) answers 410 and deletes both the backing bytes
and the ledger row, and every retrieval after that answers 404 — so no
retrieval ever succeeds past the threshold and the stored counter never
exceeds it as observed by a new requester. -/
theorem downloads_single_use (st : Store) (now now' : Nat) (f : String)
    (r : FileRecord)
    (hfind : findByID st.ledger (extractID f) = some r)
    (hexp : isExpired now r = false) (hexp' : isExpired now' r = false)
    (hdisk : diskHas st r.filePath = true)
    (hdl : r.downloads = 0) :
    (runDownload st now f).2 = .fileStream r.filePath r.originalName r.fileSize ∧
    findByID (runDownload st now f).1.ledger (extractID f)
      = some { r with downloads := 1 } ∧
    (runDownload (runDownload st now f).1 now' f).2 = .alreadyDownloaded ∧
    DownloadResp.status (runDownload (runDownload st now f).1 now' f).2 = 410 ∧
    findByID (runDownload (runDownload st now f).1 now' f).1.ledger
      (extractID f) = none ∧
    diskHas (runDownload (runDownload st now f).1 now' f).1 r.filePath
      = false ∧
    ∀ now₂, (runDownload (runDownload (runDownload st now f).1 now' f).1
      now₂ f).2 = .notFound := by
  have hid := uniqueID_of_findByID hfind
  have h1 : handleFileDownload st now f
      = (.fileStream r.filePath r.originalName r.fileSize,
         [.dbSetDownloads r.uniqueID (r.downloads + 1), .sendFile r.filePath]) := by
    simp [handleFileDownload, hfind, hexp, hdisk, hdl]
  have hresp1 : (runDownload st now f).2
      = .fileStream r.filePath r.originalName r.fileSize := by
    simp [runDownload, h1]
  have hst1 : (runDownload st now f).1
      = dbUpdateDownloads st r.uniqueID (r.downloads + 1) := by
    simp [runDownload, h1, applyEffect]
  have hfindu : findByID st.ledger r.uniqueID = some r := by
    rw [hid]; exact hfind
  have hfind1 : findByID (runDownload st now f).1.ledger (extractID f)
      = some { r with downloads := 1 } := by
    rw [hst1, ← hid, findByID_dbUpdateDownloads, hfindu]
    simp [hdl]
  have hexp1 : isExpired now' ({ r with downloads := 1 } : FileRecord)
      = false := hexp'
  have hdisk1 : diskHas (runDownload st now f).1 r.filePath = true := by
    rw [hst1]; exact hdisk
  have h2 : handleFileDownload (runDownload st now f).1 now' f
      = (.alreadyDownloaded, [.osRemove r.filePath, .dbDelete r.uniqueID]) := by
    simp [handleFileDownload, hfind1, hexp1, hdisk1]
  have hresp2 : (runDownload (runDownload st now f).1 now' f).2
      = .alreadyDownloaded := by
    rw [runDownload_eq, h2]
  have hst2 : (runDownload (runDownload st now f).1 now' f).1
      = deleteByID (removePath (runDownload st now f).1 r.filePath)
          r.uniqueID := by
    rw [runDownload_eq, h2]
    rfl
  have hfind2 : findByID (runDownload (runDownload st now f).1 now' f).1.ledger
      (extractID f) = none := by
    rw [hst2, ← hid]; exact findByID_deleteByID _ _
  have hdisk2 : diskHas (runDownload (runDownload st now f).1 now' f).1
      r.filePath = false := by
    rw [hst2]; exact diskHas_removePath _ _
  refine ⟨hresp1, hfind1, hresp2, by rw [hresp2]; rfl, hfind2, hdisk2, ?_⟩
  intro now₂
  rw [runDownload_eq]
  simp only [handleFileDownload, hfind2]

/-- Witness for C1: the fixture store, downloaded at time 50 and retried at
time 60, both within the expiry window. -/
theorem downloads_single_use_witness :
    (runDownload exStore 50 "deadbeef").2
      = .fileStream exRec.filePath exRec.originalName exRec.fileSize ∧
    findByID (runDownload exStore 50 "deadbeef").1.ledger
      (extractID "deadbeef") = some { exRec with downloads := 1 } ∧
    (runDownload (runDownload exStore 50 "deadbeef").1 60 "deadbeef").2
      = .alreadyDownloaded ∧
    DownloadResp.status
      (runDownload (runDownload exStore 50 "deadbeef").1 60 "deadbeef").2
      = 410 ∧
    findByID
      (runDownload (runDownload exStore 50 "deadbeef").1 60 "deadbeef").1.ledger
      (extractID "deadbeef") = none ∧
    diskHas (runDownload (runDownload exStore 50 "deadbeef").1 60 "deadbeef").1
      exRec.filePath = false ∧
    ∀ now₂, (runDownload
      (runDownload (runDownload exStore 50 "deadbeef").1 60 "deadbeef").1
      now₂ "deadbeef").2 = .notFound :=
  downloads_single_use exStore 50 60 "deadbeef" exRec (by decide) (by decide)
    (by decide) (by decide) (by decide)

/-- Witness for C10 at the id `abc123` and the extension `txt`. -/
theorem download_filename_extension_witness :
    extractID ("abc123" ++ "." ++ "txt") = "abc123" ∧
    extractID "abc123" = "abc123" ∧
    ∀ st now, handleFileDownload st now ("abc123" ++ "." ++ "txt")
      = handleFileDownload st now "abc123" :=
  download_filename_extension "abc123" "txt" (by decide) (by decide)

/-- C2 counterexample: at time 200 the fixture record (expiry time 100, zero
downloads, bytes on disk) is past expiry, yet the handler answers status 404
("File has expired"), not the 410 Gone the claim states. -/
theorem expired_retrieval_not_410 :
    (runDownload exStore 200 "deadbeef").2 = .hasExpired ∧
    DownloadResp.status (runDownload exStore 200 "deadbeef").2 = 404 ∧
    DownloadResp.status (runDownload exStore 200 "deadbeef").2 ≠ 410 := by
  decide

/-- C2 (amended): a retrieval strictly after the stored expiry instant fails
with status 404 and the distinct body "File has expired" — expiry is told
apart from an unknown id by the message, not by a 410 status — and, even
with a zero download counter, it deletes both the backing bytes and the
ledger entry (lazy expiry). -/
theorem expired_lazy_cleanup (st : Store) (now : Nat) (f : String)
    (r : FileRecord) (t : Nat)
    (hfind : findByID st.ledger (extractID f) = some r)
    (hexp : r.expiresAt = some t) (hnow : t < now) :
    (runDownload st now f).2 = .hasExpired ∧
    DownloadResp.status (runDownload st now f).2 = 404 ∧
    (runDownload st now f).2 ≠ .notFound ∧
    findByID (runDownload st now f).1.ledger (extractID f) = none ∧
    diskHas (runDownload st now f).1 r.filePath = false := by
  have hid := uniqueID_of_findByID hfind
  have hexpb : isExpired now r = true := by simp [isExpired, hexp, hnow]
  have h1 : handleFileDownload st now f
      = (.hasExpired, [.osRemove r.filePath, .dbDelete r.uniqueID]) := by
    simp [handleFileDownload, hfind, hexpb]
  have hresp : (runDownload st now f).2 = .hasExpired := by
    simp [runDownload_eq, h1]
  have hst : (runDownload st now f).1
      = deleteByID (removePath st r.filePath) r.uniqueID := by
    simp [runDownload_eq, h1, applyEffect]
  refine ⟨hresp, by rw [hresp]; rfl, by rw [hresp]; decide, ?_, ?_⟩
  · rw [hst, ← hid]; exact findByID_deleteByID _ _
  · rw [hst]; exact diskHas_removePath _ _

/-- Witness for C2's amended theorem at the fixture store, time 200. -/
theorem expired_lazy_cleanup_witness :
    (runDownload exStore 200 "deadbeef").2 = .hasExpired ∧
    DownloadResp.status (runDownload exStore 200 "deadbeef").2 = 404 ∧
    (runDownload exStore 200 "deadbeef").2 ≠ .notFound ∧
    findByID (runDownload exStore 200 "deadbeef").1.ledger
      (extractID "deadbeef") = none ∧
    diskHas (runDownload exStore 200 "deadbeef").1 exRec.filePath = false :=
  expired_lazy_cleanup exStore 200 "deadbeef" exRec 100 (by decide) (by decide)
    (by decide)

/-- C7 counterexample: the orphan fixture (row present, unexpired, bytes
absent) answers 404 on access at time 50, but its ledger row survives — the
claim that the stale entry is deleted on the next access attempt fails. -/
theorem orphan_row_survives_access :
    (runDownload orphanStore 50 "feedface").2 = .notOnDisk ∧
    findByID (runDownload orphanStore 50 "feedface").1.ledger "feedface"
      = some orphanRec := by
  decide

/-- C7 (amended): when an unexpired row's backing bytes are absent, the next
access fails with status 404 ("File not found on disk") and performs no
cleanup at all: the whole state is unchanged and the stale ledger row is
still found afterwards; it disappears only once lazy expiry/exhaustion or a
sweep later selects it. -/
theorem orphan_row_kept_on_access (st : Store) (now : Nat) (f : String)
    (r : FileRecord)
    (hfind : findByID st.ledger (extractID f) = some r)
    (hexp : isExpired now r = false)
    (hdisk : diskHas st r.filePath = false) :
    runDownload st now f = (st, .notOnDisk) ∧
    DownloadResp.status (runDownload st now f).2 = 404 ∧
    findByID (runDownload st now f).1.ledger (extractID f) = some r := by
  have h1 : handleFileDownload st now f = (.notOnDisk, []) := by
    simp [handleFileDownload, hfind, hexp, hdisk]
  refine ⟨?_, ?_, ?_⟩
  · simp [runDownload_eq, h1]
  · simp [runDownload_eq, h1, DownloadResp.status]
  · simp [runDownload_eq, h1, hfind]

/-- Witness for C7's amended theorem at the orphan fixture, time 50. -/
theorem orphan_row_kept_on_access_witness :
    runDownload orphanStore 50 "feedface" = (orphanStore, .notOnDisk) ∧
    DownloadResp.status (runDownload orphanStore 50 "feedface").2 = 404 ∧
    findByID (runDownload orphanStore 50 "feedface").1.ledger
      (extractID "feedface") = some orphanRec :=
  orphan_row_kept_on_access orphanStore 50 "feedface" orphanRec (by decide)
    (by decide) (by decide)

/-- C6: the download counter is durably updated before byte streaming begins,
never after: whenever the handler's effect trace contains a sendFile event,
the trace is exactly the two-event sequence "set the stored counter to the
fetched value plus one, then send the file", so the state in force when the
stream starts already carries the increment. -/
theorem increment_precedes_stream (st : Store) (now : Nat) (f p : String)
    (hmem : Effect.sendFile p ∈ (handleFileDownload st now f).2) :
    ∃ r, findByID st.ledger (extractID f) = some r ∧
      (handleFileDownload st now f).2
        = [.dbSetDownloads r.uniqueID (r.downloads + 1),
           .sendFile r.filePath] ∧
      p = r.filePath ∧
      (runDownload st now f).1
        = dbUpdateDownloads st r.uniqueID (r.downloads + 1) := by
  cases hfind : findByID st.ledger (extractID f) with
  | none =>
    exfalso; revert hmem; simp [handleFileDownload, hfind]
  | some r =>
    by_cases hexp : isExpired now r = true
    · exfalso; revert hmem; simp [handleFileDownload, hfind, hexp]
    · by_cases hdisk : diskHas st r.filePath = false
      · exfalso; revert hmem; simp [handleFileDownload, hfind, hexp, hdisk]
      · by_cases hdl : r.downloads ≥ 1
        · exfalso; revert hmem
          simp [handleFileDownload, hfind, hexp, hdisk, hdl]
        · have h1 : handleFileDownload st now f
              = (.fileStream r.filePath r.originalName r.fileSize,
                 [.dbSetDownloads r.uniqueID (r.downloads + 1),
                  .sendFile r.filePath]) := by
            simp [handleFileDownload, hfind, hexp, hdisk, hdl]
          have hp : p = r.filePath := by
            rw [h1] at hmem
            simpa using hmem
          refine ⟨r, rfl, by rw [h1], hp, ?_⟩
          simp [runDownload_eq, h1, applyEffect]

/-- Witness for C6 at the fixture store, time 50. -/
theorem increment_precedes_stream_witness :
    ∃ r, findByID exStore.ledger (extractID "deadbeef") = some r ∧
      (handleFileDownload exStore 50 "deadbeef").2
        = [.dbSetDownloads r.uniqueID (r.downloads + 1),
           .sendFile r.filePath] ∧
      "uploads/deadbeef.txt" = r.filePath ∧
      (runDownload exStore 50 "deadbeef").1
        = dbUpdateDownloads exStore r.uniqueID (r.downloads + 1) :=
  increment_precedes_stream exStore 50 "deadbeef" "uploads/deadbeef.txt"
    (by decide)

/-! ## Sweep lemmas -/

theorem ledger_noID_reclaimStep (s : Store) (r : FileRecord) (i : String)
    (h : ∀ x ∈ s.ledger, x.uniqueID ≠ i) :
    ∀ x ∈ (reclaimStep s r).ledger, x.uniqueID ≠ i := by
  intro x hx
  simp only [reclaimStep, deleteByID, removePath] at hx
  exact h x (List.mem_filter.mp hx).1

theorem diskHas_false_reclaimStep (s : Store) (r : FileRecord) (p : String)
    (h : diskHas s p = false) : diskHas (reclaimStep s r) p = false := by
  simp only [reclaimStep, deleteByID, removePath, diskHas] at h ⊢
  rw [List.any_eq_false] at h ⊢
  intro x hx
  exact h x (List.mem_filter.mp hx).1

theorem reclaimStep_kills_id (s : Store) (r : FileRecord) :
    ∀ x ∈ (reclaimStep s r).ledger, x.uniqueID ≠ r.uniqueID := by
  intro x hx
  simp only [reclaimStep, deleteByID, removePath] at hx
  have := (List.mem_filter.mp hx).2
  simpa using this

theorem reclaimStep_kills_path (s : Store) (r : FileRecord) :
    diskHas (reclaimStep s r) r.filePath = false :=
  diskHas_removePath s r.filePath

theorem foldl_reclaim_noID (l : List FileRecord) (s : Store) (i : String)
    (h : ∀ x ∈ s.ledger, x.uniqueID ≠ i) :
    ∀ x ∈ (l.foldl reclaimStep s).ledger, x.uniqueID ≠ i := by
  induction l generalizing s with
  | nil => exact h
  | cons a t ih =>
    rw [List.foldl_cons]
    exact ih _ (ledger_noID_reclaimStep s a i h)

theorem foldl_reclaim_diskFalse (l : List FileRecord) (s : Store) (p : String)
    (h : diskHas s p = false) :
    diskHas (l.foldl reclaimStep s) p = false := by
  induction l generalizing s with
  | nil => exact h
  | cons a t ih =>
    rw [List.foldl_cons]
    exact ih _ (diskHas_false_reclaimStep s a p h)

theorem foldl_reclaim_removes (l : List FileRecord) (s : Store)
    (r : FileRecord) (hmem : r ∈ l) :
    (∀ x ∈ (l.foldl reclaimStep s).ledger, x.uniqueID ≠ r.uniqueID) ∧
    diskHas (l.foldl reclaimStep s) r.filePath = false := by
  induction l generalizing s with
  | nil => cases hmem
  | cons a t ih =>
    rw [List.foldl_cons]
    rcases List.mem_cons.mp hmem with rfl | hmem'
    · exact ⟨foldl_reclaim_noID t _ _ (reclaimStep_kills_id s r),
             foldl_reclaim_diskFalse t _ _ (reclaimStep_kills_path s r)⟩
    · exact ih _ hmem'

/-- C3 (code bug): the hourly sweep is dead code.  main spawns no background
loop, so cleanupExpiredFiles' ticker never starts and the program schedules
no reclaim run at all; an expired, never-accessed object therefore persists
indefinitely.  The per-run body, had a run been started, would have deleted
every row with `expires_at` strictly before now or downloads ≥ 1 — bytes (a
missing file being a no-op) and ledger row alike — though even then a row
exactly on the `expires_at = now` boundary would survive, the query being
strict where the claim says `expiresAt <= now`. -/
theorem reclaimer_never_started (st : Store) (now : Nat)
    (r : FileRecord) (hmem : r ∈ st.ledger)
    (hsel : reclaimSelect now r = true) :
    mainBackgroundLoops = [] ∧
    cleanupTick ∉ mainBackgroundLoops ∧
    (∀ x ∈ (cleanupTick st now).ledger, x.uniqueID ≠ r.uniqueID) ∧
    diskHas (cleanupTick st now) r.filePath = false ∧
    cleanupTick exStore 100 = exStore := by
  have hmem' : r ∈ st.ledger.filter (reclaimSelect now) :=
    List.mem_filter.mpr ⟨hmem, hsel⟩
  have h := foldl_reclaim_removes (st.ledger.filter (reclaimSelect now)) st
    r hmem'
  exact ⟨rfl, List.not_mem_nil _, h.1, h.2, by decide⟩

/-- Witness for C3's theorem: the orphan-fixture row, expired by time 200,
would be swept by a run — but no run is ever scheduled. -/
theorem reclaimer_never_started_witness :
    mainBackgroundLoops = [] ∧
    cleanupTick ∉ mainBackgroundLoops ∧
    (∀ x ∈ (cleanupTick orphanStore 200).ledger,
      x.uniqueID ≠ orphanRec.uniqueID) ∧
    diskHas (cleanupTick orphanStore 200) orphanRec.filePath = false ∧
    cleanupTick exStore 100 = exStore :=
  reclaimer_never_started orphanStore 200 orphanRec (by decide) (by decide)

/-- C4 counterexample: a raw-PUT upload that declares 0 bytes but actually
streams one byte more than the 50GB limit is accepted with 200 and persists
both the oversized bytes and a ledger row recording the oversized actual
size — the actual streamed byte count is never re-checked against the
limit. -/
theorem oversize_actual_upload_accepted :
    (handleCurlUpload { ledger := [], disk := [] } "big.bin" "cafe" 0
        53687091201 true true true 0 "application/x" "1.2.3.4" "http://h").2
      = .curlOk "http://h/d/cafe.bin" ∧
    UploadResp.status
      (handleCurlUpload { ledger := [], disk := [] } "big.bin" "cafe" 0
        53687091201 true true true 0 "application/x" "1.2.3.4" "http://h").2
      = 200 ∧
    diskHas
      (handleCurlUpload { ledger := [], disk := [] } "big.bin" "cafe" 0
        53687091201 true true true 0 "application/x" "1.2.3.4" "http://h").1
      (uploadPath "cafe" ".bin") = true ∧
    findByID
      (handleCurlUpload { ledger := [], disk := [] } "big.bin" "cafe" 0
        53687091201 true true true 0 "application/x" "1.2.3.4" "http://h").1.ledger
      "cafe" ≠ none := by
  decide

/-- C4 (amended): the multipart path rejects a part whose (actual) size
exceeds its hardcoded 10GB limit with 413 before writing any bytes or row,
and the raw-PUT path rejects with 413 — writing nothing — only when the
client-DECLARED Content-Length exceeds its hardcoded 50GB limit; after the
stream completes the actual byte count is measured and recorded in the
ledger but never re-checked, so a raw-PUT whose declared size passes
succeeds with 200 and persists bytes and row whatever the actual count. -/
theorem upload_size_checks (st : Store) (fname uid : String)
    (decl fsize : Int) (act : Nat) (now : Nat) (mime ip base : String) :
    (decl > curlSizeLimit →
      handleCurlUpload st fname uid decl act true true true now mime ip base
        = (st, .tooLarge)) ∧
    (fsize > formSizeLimit →
      handleFileUpload st (some (fname, fsize, mime)) uid true true now ip base
        = (st, .tooLarge)) ∧
    UploadResp.status UploadResp.tooLarge = 413 ∧
    (decl ≤ curlSizeLimit →
      handleCurlUpload st fname uid decl act true true true now mime ip base
        = (insertRecord (writePath st (uploadPath uid (extOrBin fname)) act)
            { uniqueID := uid, originalName := fname,
              filePath := uploadPath uid (extOrBin fname),
              fileSize := (act : Int), mimeType := mime,
              extension := extOrBin fname, uploadedAt := now, downloads := 0,
              ipAddress := ip, expiresAt := some (now + uploadTTL) },
           .curlOk (base ++ "/d/" ++ uid ++ extOrBin fname))) := by
  refine ⟨fun h => ?_, fun h => ?_, rfl, fun h => ?_⟩
  · simp [handleCurlUpload, h]
  · simp [handleFileUpload, h]
  · have hnot : ¬(decl > curlSizeLimit) := not_lt.mpr h
    simp [handleCurlUpload, hnot]

/-- Witness for C4's amended theorem: a 5-byte declared, 9-byte actual
raw-PUT and an oversized multipart part, on the empty store. -/
theorem upload_size_checks_witness :
    ((3 : Int) > curlSizeLimit →
      handleCurlUpload { ledger := [], disk := [] } "a.txt" "cafe" 3 9 true
        true true 0 "t/p" "ip" "http://h" = ({ ledger := [], disk := [] }, .tooLarge)) ∧
    ((10737418241 : Int) > formSizeLimit →
      handleFileUpload { ledger := [], disk := [] }
        (some ("a.txt", 10737418241, "t/p")) "cafe" true true 0 "ip" "http://h"
        = ({ ledger := [], disk := [] }, .tooLarge)) ∧
    UploadResp.status UploadResp.tooLarge = 413 ∧
    ((3 : Int) ≤ curlSizeLimit →
      handleCurlUpload { ledger := [], disk := [] } "a.txt" "cafe" 3 9 true
        true true 0 "t/p" "ip" "http://h"
        = (insertRecord
            (writePath { ledger := [], disk := [] }
              (uploadPath "cafe" (extOrBin "a.txt")) 9)
            { uniqueID := "cafe", originalName := "a.txt",
              filePath := uploadPath "cafe" (extOrBin "a.txt"),
              fileSize := (9 : Int), mimeType := "t/p",
              extension := extOrBin "a.txt", uploadedAt := 0, downloads := 0,
              ipAddress := "ip", expiresAt := some (0 + uploadTTL) },
           .curlOk ("http://h" ++ "/d/" ++ "cafe" ++ extOrBin "a.txt"))) :=
  upload_size_checks { ledger := [], disk := [] } "a.txt" "cafe" 3 10737418241
    9 0 "t/p" "ip" "http://h"

/-- C5: when the ledger insert fails after the bytes are fully written, both
upload paths delete the just-written bytes and answer 500 ("Failed to save
file metadata"): the final ledger is exactly the original one and the upload
path holds no bytes, so neither side of the object persists. -/
theorem insert_failure_rolls_back (st : Store) (fname uid : String)
    (decl fsize : Int) (act : Nat) (now : Nat) (mime ip base : String)
    (hdecl : decl ≤ curlSizeLimit) (hfsize : fsize ≤ formSizeLimit) :
    (handleCurlUpload st fname uid decl act true true false now mime ip
        base).2 = .metadataFailed ∧
    UploadResp.status
      (handleCurlUpload st fname uid decl act true true false now mime ip
        base).2 = 500 ∧
    (handleCurlUpload st fname uid decl act true true false now mime ip
        base).1.ledger = st.ledger ∧
    diskHas
      (handleCurlUpload st fname uid decl act true true false now mime ip
        base).1 (uploadPath uid (extOrBin fname)) = false ∧
    (handleFileUpload st (some (fname, fsize, mime)) uid true false now ip
        base).2 = .metadataFailed ∧
    (handleFileUpload st (some (fname, fsize, mime)) uid true false now ip
        base).1.ledger = st.ledger ∧
    diskHas
      (handleFileUpload st (some (fname, fsize, mime)) uid true false now ip
        base).1 (uploadPath uid (extOrBin fname)) = false := by
  have hnotc : ¬(decl > curlSizeLimit) := not_lt.mpr hdecl
  have hnotf : ¬(fsize > formSizeLimit) := not_lt.mpr hfsize
  have hc : handleCurlUpload st fname uid decl act true true false now mime
      ip base
      = (removePath (writePath st (uploadPath uid (extOrBin fname)) act)
          (uploadPath uid (extOrBin fname)), .metadataFailed) := by
    simp [handleCurlUpload, hnotc]
  have hf : handleFileUpload st (some (fname, fsize, mime)) uid true false
      now ip base
      = (removePath (writePath st (uploadPath uid (extOrBin fname))
          fsize.toNat) (uploadPath uid (extOrBin fname)), .metadataFailed) := by
    simp [handleFileUpload, hnotf]
  refine ⟨by rw [hc], by rw [hc]; rfl, by rw [hc]; rfl, ?_, by rw [hf],
    by rw [hf]; rfl, ?_⟩
  · rw [hc]; exact diskHas_removePath _ _
  · rw [hf]; exact diskHas_removePath _ _

/-- Witness for C5: both paths at a small in-limit upload whose insert
fails, on the empty store. -/
theorem insert_failure_rolls_back_witness :
    (handleCurlUpload { ledger := [], disk := [] } "a.txt" "cafe" 3 3 true
        true false 0 "t/p" "ip" "http://h").2 = .metadataFailed ∧
    UploadResp.status
      (handleCurlUpload { ledger := [], disk := [] } "a.txt" "cafe" 3 3 true
        true false 0 "t/p" "ip" "http://h").2 = 500 ∧
    (handleCurlUpload { ledger := [], disk := [] } "a.txt" "cafe" 3 3 true
        true false 0 "t/p" "ip" "http://h").1.ledger
      = ({ ledger := [], disk := [] } : Store).ledger ∧
    diskHas
      (handleCurlUpload { ledger := [], disk := [] } "a.txt" "cafe" 3 3 true
        true false 0 "t/p" "ip" "http://h").1
      (uploadPath "cafe" (extOrBin "a.txt")) = false ∧
    (handleFileUpload { ledger := [], disk := [] }
        (some ("a.txt", 4, "t/p")) "cafe" true false 0 "ip" "http://h").2
      = .metadataFailed ∧
    (handleFileUpload { ledger := [], disk := [] }
        (some ("a.txt", 4, "t/p")) "cafe" true false 0 "ip" "http://h").1.ledger
      = ({ ledger := [], disk := [] } : Store).ledger ∧
    diskHas
      (handleFileUpload { ledger := [], disk := [] }
        (some ("a.txt", 4, "t/p")) "cafe" true false 0 "ip" "http://h").1
      (uploadPath "cafe" (extOrBin "a.txt")) = false :=
  insert_failure_rolls_back { ledger := [], disk := [] } "a.txt" "cafe" 3 4 3
    0 "t/p" "ip" "http://h" (by decide) (by decide)

/-- A digits-then-unit string parses to the digits' value times the unit's
multiplier, for any unit string that starts with neither a digit nor a dot
and that the unit table recognizes. -/
theorem parseHuman_digits_unit (um : List Char → Option Nat)
    (cs u : List Char) (m : Nat) (hne : cs ≠ [])
    (hdig : ∀ c ∈ cs, c.isDigit = true)
    (hu1 : u.dropWhile Char.isDigit = u)
    (hu3 : u.takeWhile Char.isDigit = []) (hu2 : u.head? ≠ some '.')
    (hm : um (u.map Char.toLower) = some m) :
    parseHuman um (cs ++ u) = .ok (digitsToNat cs * m) := by
  have ht := takeWhile_append_all (p := Char.isDigit) cs u hdig
  have hd := dropWhile_append_all (p := Char.isDigit) cs u hdig
  simp only [parseHuman, ht, hd, hu1, hu3, List.append_nil]
  rw [if_neg hne, if_neg hu2, hm]

/-- C8 (spec-modelled): the configuration parser turns a size string into the
binary (1024-based) multiple of its unit with SI and IEC spellings alike —
`"1GB"` and `"1gb"` give 1073741824, `"2.5GB"` gives 2684354560, `"100MiB"`
gives 104857600, and generally any digit string followed by `GB` or by `GiB`
gives the digits times 1024³ — while a string with no leading digits, an
unrecognized unit, or an unparseable number fails with `InvalidFormat`, on
which the caller substitutes the hardcoded defaults (1GB upload limit, 3-day
expiry, here in minutes) instead of aborting startup. -/
theorem parse_size_binary_units :
    parseSize "1GB" = .ok 1073741824 ∧
    parseSize "1gb" = .ok 1073741824 ∧
    parseSize "2.5GB" = .ok 2684354560 ∧
    parseSize "100MiB" = .ok 104857600 ∧
    parseSize "" = .error .invalidFormat ∧
    parseSize "abc" = .error .invalidFormat ∧
    parseSize "12XB" = .error .invalidFormat ∧
    parseSize "1..5GB" = .error .invalidFormat ∧
    sizeLimitConfig "abc" = 1073741824 ∧
    expiryConfig "abc" = 4320 ∧
    ∀ cs : List Char, cs ≠ [] → (∀ c ∈ cs, c.isDigit = true) →
      parseHuman sizeUnitMult (cs ++ ['G','B'])
        = .ok (digitsToNat cs * 1024 ^ 3) ∧
      parseHuman sizeUnitMult (cs ++ ['G','i','B'])
        = .ok (digitsToNat cs * 1024 ^ 3) := by
  refine ⟨rfl, rfl, rfl, rfl, rfl, rfl, rfl, rfl, rfl, rfl, ?_⟩
  intro cs hne hdig
  exact ⟨parseHuman_digits_unit sizeUnitMult cs ['G','B'] (1024 ^ 3) hne hdig
      rfl rfl (by decide) rfl,
    parseHuman_digits_unit sizeUnitMult cs ['G','i','B'] (1024 ^ 3) hne hdig
      rfl rfl (by decide) rfl⟩

/-- C9: with a shared secret configured, a request that supplies the matching
secret in none of the `X-API-Key` header, the `api_key` query parameter and
the `api_key` form field is rejected with 401 by the middleware; the
middleware is mounted on every `/api/*` route and on `PUT /`, and on neither
download route. -/
theorem api_key_gating (key : String) (hkey : key ≠ "") :
    (∀ hd qu fm : String, hd ≠ key → qu ≠ key → fm ≠ key →
      apiKeyMiddleware key hd qu fm = some 401) ∧
    (∀ r ∈ setupRoutes key,
      ("/api/".data.isPrefixOf r.path.data = true ∨
        (r.method = "PUT" ∧ r.path = "/")) → r.authGated = true) ∧
    (∀ r ∈ setupRoutes key,
      (r.path = "/d/:filename" ∨ r.path = "/download/:filename") →
        r.authGated = false) := by
  have hkb : (key != "") = true := by simpa using hkey
  refine ⟨?_, ?_, ?_⟩
  · intro hd qu fm hh hq hf
    by_cases h1 : hd = ""
    · by_cases h2 : qu = ""
      · simp [apiKeyMiddleware, hkey, h1, h2, hf]
      · simp [apiKeyMiddleware, hkey, h1, h2, hq]
    · simp [apiKeyMiddleware, hkey, h1, hh]
  · intro r hr hcase
    simp only [setupRoutes, List.mem_cons, List.mem_singleton,
      List.not_mem_nil, or_false] at hr
    rcases hr with rfl | rfl | rfl | rfl | rfl | rfl | rfl <;>
      first
        | exact hkb
        | exact absurd hcase (by simp)
  · intro r hr hcase
    simp only [setupRoutes, List.mem_cons, List.mem_singleton,
      List.not_mem_nil, or_false] at hr
    rcases hr with rfl | rfl | rfl | rfl | rfl | rfl | rfl <;>
      first
        | rfl
        | exact absurd hcase (by simp)

/-- Witness for C9 at the configured secret `s3cret`. -/
theorem api_key_gating_witness :
    (∀ hd qu fm : String, hd ≠ "s3cret" → qu ≠ "s3cret" → fm ≠ "s3cret" →
      apiKeyMiddleware "s3cret" hd qu fm = some 401) ∧
    (∀ r ∈ setupRoutes "s3cret",
      ("/api/".data.isPrefixOf r.path.data = true ∨
        (r.method = "PUT" ∧ r.path = "/")) → r.authGated = true) ∧
    (∀ r ∈ setupRoutes "s3cret",
      (r.path = "/d/:filename" ∨ r.path = "/download/:filename") →
        r.authGated = false) :=
  api_key_gating "s3cret" (by decide)

end Bashupload
